import Mathlib

/-!
Shallow embedding of the payment-to-order reconciliation pipeline of the
ecommerceBackend repository, together with theorems checking the
specification's claims against it.

Sources embedded:
- `src/api/controllers/stripe_view.py` (`_to_cents`, `create_intent`,
  `webhook`, `create_order`, `create_address_from_shipping_metadata`,
  `_create_order_from_payment_intent`);
- `src/api/serializers.py` (`CreateGuestOrderSerializer.create`,
  `CreateAuthenticatedOrderSerializer.create`, `AddressSerializer`);
- `src/api/services/order_creation_service.py` (`OrderCreationService`,
  in particular `_validate_and_update_stock`);
- `src/base/models/order_model.py` (`OrderModel`, including its id
  generation in `save`).

Modelling conventions:
- Python `Decimal`/`float` money amounts are modelled as exact rationals `ℚ`;
  database ids are `String`s; machine integers are `Int`.
- `None`-able strings read from Stripe metadata are `Option String`; Python
  string truthiness (`if not s`) is `optTruthy`.
- The JSON `cart_items` metadata string is abstracted by its parse result
  (`JsonCart.ok lines` for a well-shaped list, `JsonCart.bad` for a string
  whose parse or shape fails inside a caught exception); a missing
  `cart_items` key is `none`, on which `json.loads(None)` raises an uncaught
  `TypeError` in the view.
- Rows created by `Model.objects.create` are appended at the end of the
  corresponding list; primary-key ids are assumed unique and lookups use the
  first match (`List.find?`).
- DRF field-level validation (`serializer.is_valid`) is abstracted away by
  constructing already-typed data, mirroring the typed dictionaries the
  controllers build; the `create` bodies of the serializers are embedded
  faithfully.
- A serializer's `self.context` reduces, for these serializers, to the
  optional `country_code` entry; it is passed as an `Option String`.  The
  controllers under embedding construct the serializers with no context
  (`CreateAuthenticatedOrderSerializer(data=order_data)`), which corresponds
  to instantiating that parameter with `none`.
- External effects (Stripe API calls, logging) do not touch the database and
  are dropped; the outcome of webhook signature verification and of
  `PaymentIntent.retrieve` is passed in as an `Except` value.
-/

namespace Shop

/-- Result of `json.dumps`-round-tripping the `cart_items` metadata value:
either a well-shaped list of lines or a string that fails to parse (or whose
shape raises a caught `KeyError`). -/
structure MetaCartLine where
  product_item_id : String
  qty : Int
deriving DecidableEq, Repr

inductive JsonCart where
  | ok (lines : List MetaCartLine)
  | bad
deriving DecidableEq, Repr

/-- The string-keyed Stripe `PaymentIntent.metadata` dictionary; `none` means
the key is absent. -/
structure Metadata where
  user_id : Option String := none
  guest_id : Option String := none
  is_authenticated : Option String := none
  cart_items : Option JsonCart := none
  address_id : Option String := none
  shipping_vendor_id : Option String := none
  order_id : Option String := none
  guest_email : Option String := none
  guest_first_name : Option String := none
  guest_last_name : Option String := none
  shipping_line1 : Option String := none
  shipping_line2 : Option String := none
  shipping_city : Option String := none
  shipping_state : Option String := none
  shipping_postal_code : Option String := none
  shipping_country : Option String := none
  shipping_phone : Option String := none
deriving DecidableEq, Repr

/-- A Stripe `PaymentIntent` snapshot, as read by the controllers. -/
structure PaymentIntent where
  id : String
  amount : Int
  status : String
  metadata : Metadata
deriving DecidableEq, Repr

/-- Python truthiness of an optional string: `False` for `None` and `""`. -/
def optTruthy : Option String → Bool
  | none => false
  | some s => s != ""

/-- `ProductModel`: only the name is consulted by the embedded code. -/
structure Product where
  id : String
  name : String
deriving DecidableEq, Repr

/-- `ProductItemModel`; `price` is the `price` property (the AU entry of
`ProductItemPriceModel`, `None` when absent). -/
structure ProductItem where
  id : String
  productId : String
  price : Option ℚ
  stock : Int
deriving DecidableEq, Repr

/-- `ProductItemLocationModel` for one (item, country) pair; `finalPrice`
is the value of the `final_price` property at reconciliation time
(`None` when the backing `ProductLocation` base price is missing). -/
structure ItemLocationPrice where
  itemId : String
  country : String
  finalPrice : Option ℚ
deriving DecidableEq, Repr

/-- `ProductLocationModel` price row for one (product, country) pair. -/
structure ProductLocationPrice where
  productId : String
  country : String
  price : ℚ
deriving DecidableEq, Repr

/-- `AddressModel`. -/
structure Address where
  id : String
  addressLine : String
  city : String
  postcode : String
  state : String
  country : String
deriving DecidableEq, Repr

/-- `GuestUserModel`. -/
structure GuestUser where
  id : String
  email : String
  firstName : String
  lastName : String
  phone : String
deriving DecidableEq, Repr

/-- `ShoppingCartItemModel` row of an authenticated user's persisted cart. -/
structure CartRow where
  userId : String
  productItemId : String
  quantity : Int
deriving DecidableEq, Repr

/-- `ORDER_STATUS` enum. -/
inductive OrderStatus where
  | pending
  | processing
  | shipped
  | delivered
  | cancelled
deriving DecidableEq, Repr

/-- `OrderModel` row. -/
structure Order where
  id : String
  user : Option String
  guestUser : Option String
  addressId : String
  totalPrice : ℚ
  status : OrderStatus
  paymentIntentId : Option String
deriving DecidableEq, Repr

/-- `OrderItemModel` row with the frozen per-unit price. -/
structure OrderItem where
  orderId : String
  productItemId : String
  quantity : Int
  price : ℚ
deriving DecidableEq, Repr

/-- The relational state visible to the embedded code.  `nextId` feeds the
fresh UUIDs handed out for new addresses and guest users; order rows are kept
in creation order, so `orders.getLast?` is the row Django returns for
`order_by createdAt ... last`. -/
structure DB where
  products : List Product := []
  productItems : List ProductItem := []
  itemLocationPrices : List ItemLocationPrice := []
  productLocationPrices : List ProductLocationPrice := []
  users : List String := []
  addresses : List Address := []
  guestUsers : List GuestUser := []
  cartRows : List CartRow := []
  orders : List Order := []
  orderItems : List OrderItem := []
  nextId : Nat := 0
deriving DecidableEq, Repr

/-- A fresh UUID string, deterministically drawn from the counter. -/
def freshId (db : DB) : String := "uuid-" ++ toString db.nextId

/-- Rounding of `Decimal.quantize(Decimal(1), rounding=ROUND_HALF_UP)`:
to the nearest integer, ties away from zero. -/
def roundHalfUp (q : ℚ) : ℤ :=
  if 0 ≤ q then (q + 1/2).floor else -((-q + 1/2).floor)

/-- `_to_cents` from `stripe_view.py`: dollars to minor units. -/
def toCents (v : ℚ) : ℤ := roundHalfUp (v * 100)

/-! ### create_intent -/

/-- One entry of the client-supplied `cart` list, as read by `create_intent`:
`(line.get("product") or {}).get("id")` and `line.get("quantity")`.  The
`price` field stands for any client-supplied price data, which the source
never reads. -/
structure RawCartLine where
  productId : Option String := none
  quantity : Option Int := none
  price : Option ℚ := none
deriving DecidableEq, Repr

/-- A normalised line (`lines_norm` in the source). -/
structure NormLine where
  product_item_id : String
  qty : Int
deriving DecidableEq, Repr

/-- The normalisation loop of `create_intent`: skip lines with a falsy
product-item id or non-positive quantity. -/
def normalizeCart (cart : List RawCartLine) : List NormLine :=
  cart.filterMap fun l =>
    let q := l.quantity.getD 0
    match l.productId with
    | none => none
    | some pid => if pid ≠ "" ∧ 0 < q then some ⟨pid, q⟩ else none

/-- Lookup in a Python dict built by successive insertion: the last binding
wins. -/
def dictGet (m : List (String × ℚ)) (k : String) : Option ℚ :=
  (m.reverse.find? fun e => e.1 = k).map (·.2)

def dictGetS (m : List (String × String)) (k : String) : Option String :=
  (m.reverse.find? fun e => e.1 = k).map (·.2)

/-- `item.product.name or "Product"`. -/
def productDisplayName (db : DB) (it : ProductItem) : String :=
  let n := ((db.products.find? fun p => p.id = it.productId).map (·.name)).getD ""
  if n = "" then "Product" else n

/-- The `price_by_product_item` / `name_by_product_item` dictionaries of
`create_intent`.  Iterating a product item whose `price` property is `None`
makes `Decimal(str(item.price))` raise `decimal.InvalidOperation`, which
`create_intent` does not catch: that is the `.error` case. -/
def buildPriceMaps (db : DB) (ids : List String) :
    Except Unit (List (String × ℚ) × List (String × String)) :=
  (db.productItems.filter fun it => ids.contains it.id).foldlM
    (fun (acc : List (String × ℚ) × List (String × String)) it =>
      match it.price with
      | none => .error ()
      | some p => .ok (acc.1 ++ [(it.id, p)], acc.2 ++ [(it.id, productDisplayName db it)]))
    ([], [])

/-- One entry of the `items_summary` payload. -/
structure SummaryItem where
  id : String
  name : String
  quantity : Int
  unit_price_cents : ℤ
  subtotal_cents : ℤ
deriving DecidableEq, Repr

/-- The pricing loop of `create_intent`: returns the missing-item list, the
`Decimal` total and the summary, in iteration order. -/
def intentLoop (pm : List (String × ℚ)) (nm : List (String × String)) :
    List NormLine → List String × ℚ × List SummaryItem
  | [] => ([], 0, [])
  | l :: rest =>
    let (ms, t, ss) := intentLoop pm nm rest
    let unit := (dictGet pm l.product_item_id).getD 0
    if unit ≤ 0 then (l.product_item_id :: ms, t, ss)
    else
      let sub := unit * l.qty
      (ms, sub + t,
        ⟨l.product_item_id, (dictGetS nm l.product_item_id).getD "Product", l.qty,
          toCents unit, toCents sub⟩ :: ss)

/-- Response of `create_intent`; `raised` is an uncaught exception (a 500). -/
inductive IntentResp where
  | badRequest (err : String)
  | raised
  | ok (totalCents : ℤ) (items : List SummaryItem)
deriving DecidableEq, Repr

/-- `StripeViewSet.create_intent`: server-side pricing of the client cart.
The Stripe call itself and the cookie handling touch no local state and are
dropped. -/
def createIntent (db : DB) (cart : List RawCartLine) : IntentResp :=
  if cart = [] then .badRequest "Cart is empty"
  else
    let norm := normalizeCart cart
    if norm = [] then .badRequest "Cart is empty"
    else
      match buildPriceMaps db (norm.map (·.product_item_id)) with
      | .error _ => .raised
      | .ok (pm, nm) =>
        let (missing, total, summary) := intentLoop pm nm norm
        if missing ≠ [] then .badRequest "Some product items not found"
        else
          let cents := toCents total
          if cents ≤ 0 then .badRequest "Cart is empty or invalid"
          else .ok cents summary

/-- The server-resolved total Σ (unit price × qty) over normalised lines. -/
def serverTotal (pm : List (String × ℚ)) : List NormLine → ℚ
  | [] => 0
  | l :: rest => (dictGet pm l.product_item_id).getD 0 * l.qty + serverTotal pm rest

/-! ### Order serializers -/

/-- The exceptions the serializer `create` bodies can raise.
`priceIsNone` stands for the `TypeError` raised by `total_price += None * qty`
when `final_price` is `None`. -/
inductive SerErr where
  | locationRequired
  | addressNotFound (id : String)
  | userNotFound (id : String)
  | productItemNotFound (id : String)
  | notAvailableInLocation (itemId country : String)
  | priceIsNone (itemId : String)
deriving DecidableEq, Repr

/-- One entry of the `items` list handed to the order serializers. -/
structure OrderLineData where
  productItemId : String
  quantity : Int
deriving DecidableEq, Repr

/-- Validated data for `CreateGuestOrderSerializer`. -/
structure GuestOrderData where
  email : String
  firstName : String
  lastName : String
  phone : String
  addressId : String
  items : List OrderLineData
deriving DecidableEq, Repr

/-- Validated data for `CreateAuthenticatedOrderSerializer`. -/
structure AuthOrderData where
  user_id : String
  addressId : String
  items : List OrderLineData
deriving DecidableEq, Repr

/-- The location-price resolution of the serializer `create` bodies:
`ProductItemLocation.final_price` first, then the `ProductLocation` base
price, else `ValidationError`. -/
def resolveLocationPrice (db : DB) (country : String) (it : ProductItem) :
    Except SerErr ℚ :=
  match db.itemLocationPrices.find? fun e => e.itemId = it.id ∧ e.country = country with
  | some e =>
    match e.finalPrice with
    | some p => .ok p
    | none => .error (.priceIsNone it.id)
  | none =>
    match db.productLocationPrices.find? fun e => e.productId = it.productId ∧ e.country = country with
    | some pl => .ok pl.price
    | none => .error (.notAvailableInLocation it.id country)

/-- The per-item loop shared by both serializer `create` bodies: fetch the
product item, resolve its location price, accumulate the frozen lines and the
total. -/
def computeOrderLines (db : DB) (country : String) :
    List OrderLineData → Except SerErr (List (String × Int × ℚ) × ℚ)
  | [] => .ok ([], 0)
  | d :: rest =>
    match db.productItems.find? fun it => it.id = d.productItemId with
    | none => .error (.productItemNotFound d.productItemId)
    | some it =>
      match resolveLocationPrice db country it with
      | .error e => .error e
      | .ok p =>
        match computeOrderLines db country rest with
        | .error e => .error e
        | .ok (ls, t) => .ok ((d.productItemId, d.quantity, p) :: ls, p * d.quantity + t)

/-- Digits of a string, as `filter(str.isdigit, ...)`. -/
def digitsOf (s : String) : String := String.mk (s.toList.filter Char.isDigit)

/-- Zero-padding to at least four digits, as `f-string 04d`. -/
def pad4 (n : Nat) : String :=
  let s := toString n
  String.mk (List.replicate (4 - s.length) '0') ++ s

/-- `OrderModel.save` id generation: `BDNX#` followed by the digits of the
latest order's id plus one. -/
def nextOrderId (db : DB) : String :=
  match db.orders.getLast? with
  | none => "BDNX#" ++ pad4 1
  | some o => "BDNX#" ++ pad4 (((digitsOf o.id).toNat?.getD 0) + 1)

/-- `CreateGuestOrderSerializer.create`, with the serializer context's
`country_code` entry as the first argument.  A brand-new guest user is always
created; on any raised error the enclosing transaction discards the returned
state, which the callers model by keeping their original `DB`. -/
def guestCreate (ctx : Option String) (db : DB) (d : GuestOrderData) :
    Except SerErr (DB × Order) :=
  match ctx with
  | none => .error .locationRequired
  | some country =>
    let gid := freshId db
    let db1 : DB :=
      { db with
        guestUsers := db.guestUsers ++ [⟨gid, d.email, d.firstName, d.lastName, d.phone⟩],
        nextId := db.nextId + 1 }
    match db1.addresses.find? fun a => a.id = d.addressId with
    | none => .error (.addressNotFound d.addressId)
    | some addr =>
      match computeOrderLines db1 country d.items with
      | .error e => .error e
      | .ok (ls, total) =>
        let oid := nextOrderId db1
        let o : Order :=
          { id := oid, user := none, guestUser := some gid, addressId := addr.id,
            totalPrice := total, status := .pending, paymentIntentId := none }
        .ok ({ db1 with
                orders := db1.orders ++ [o],
                orderItems := db1.orderItems ++ ls.map fun l => ⟨oid, l.1, l.2.1, l.2.2⟩ },
              o)

/-- `CreateAuthenticatedOrderSerializer.create`. -/
def authCreate (ctx : Option String) (db : DB) (d : AuthOrderData) :
    Except SerErr (DB × Order) :=
  match ctx with
  | none => .error .locationRequired
  | some country =>
    if db.users.contains d.user_id then
      match db.addresses.find? fun a => a.id = d.addressId with
      | none => .error (.addressNotFound d.addressId)
      | some addr =>
        match computeOrderLines db country d.items with
        | .error e => .error e
        | .ok (ls, total) =>
          let oid := nextOrderId db
          let o : Order :=
            { id := oid, user := some d.user_id, guestUser := none, addressId := addr.id,
              totalPrice := total, status := .pending, paymentIntentId := none }
          .ok ({ db with
                  orders := db.orders ++ [o],
                  orderItems := db.orderItems ++ ls.map fun l => ⟨oid, l.1, l.2.1, l.2.2⟩ },
                o)
    else .error (.userNotFound d.user_id)

/-! ### Address creation from shipping metadata -/

/-- `create_address_from_shipping_metadata` (and, identically,
`AddressService.create_from_shipping_metadata`): build the address dict from
the shipping metadata and run it through `AddressSerializer`, whose five
`CharField`s reject blank values and enforce the model's max lengths. -/
def createAddressFromShippingMetadata (db : DB) (m : Metadata) : DB × Option String :=
  let line1 := m.shipping_line1.getD ""
  let line2 := m.shipping_line2.getD ""
  let fullAddress := if line2 ≠ "" then line2 ++ ", " ++ line1 else line1
  let city := m.shipping_city.getD ""
  let postcode := m.shipping_postal_code.getD ""
  let st := m.shipping_state.getD ""
  let country := m.shipping_country.getD ""
  if fullAddress ≠ "" ∧ city ≠ "" ∧ postcode ≠ "" ∧ st ≠ "" ∧ country ≠ "" ∧
      fullAddress.length ≤ 255 ∧ city.length ≤ 100 ∧ postcode.length ≤ 10 ∧
      st.length ≤ 100 ∧ country.length ≤ 100 then
    let aid := freshId db
    ({ db with
        addresses := db.addresses ++ [⟨aid, fullAddress, city, postcode, st, country⟩],
        nextId := db.nextId + 1 },
      some aid)
  else (db, none)

/-! ### Stock reservation (OrderCreationService._validate_and_update_stock) -/

/-- One entry of the `insufficient_stock_items` list: a line whose product
item was not found, or whose requested quantity exceeds the locked stock. -/
inductive Shortfall where
  | notFound (productItemId : String)
  | short (productItemId : String) (requested : Int) (available : Int) (name : String)
deriving DecidableEq, Repr

/-- `product_item.product.name`, used in the shortfall entries. -/
def productNameOf (db : DB) (it : ProductItem) : String :=
  ((db.products.find? fun p => p.id = it.productId).map (·.name)).getD ""

/-- The validation pass of `_validate_and_update_stock`: every line is checked
against the current stock (without mutating anything), collecting every
shortfall in iteration order. -/
def stockShortfalls (db : DB) : List MetaCartLine → List Shortfall
  | [] => []
  | l :: rest =>
    let tail := stockShortfalls db rest
    match db.productItems.find? fun it => it.id = l.product_item_id with
    | none => .notFound l.product_item_id :: tail
    | some it =>
      if it.stock < l.qty then
        .short l.product_item_id l.qty it.stock (productNameOf db it) :: tail
      else tail

/-- The update pass: `stock = F(stock) - qty` for each line. -/
def decrementStock (db : DB) : List MetaCartLine → DB
  | [] => db
  | l :: rest =>
    decrementStock
      { db with
        productItems := db.productItems.map fun it =>
          if it.id = l.product_item_id then { it with stock := it.stock - l.qty } else it }
      rest

/-- `_validate_and_update_stock`: abort with the full shortfall list if any
line is short, otherwise decrement every line. -/
def validateAndUpdateStock (db : DB) (cart : List MetaCartLine) :
    Except (List Shortfall) DB :=
  let sf := stockShortfalls db cart
  if sf ≠ [] then .error sf else .ok (decrementStock db cart)

/-! ### StripeViewSet._create_order_from_payment_intent -/

/-- The exceptions raised inside the view's order-creation `try` block (all of
them are caught at its end, turning the call into a `None` result). -/
inductive VErr where
  | addressCreationFailed
  | vendorIdNotInt
  | missingGuestEmail
  | serErr (e : SerErr)
  | amountMismatch
  | stockInsufficient (sf : List Shortfall)
deriving DecidableEq, Repr

/-- Outcome of `_create_order_from_payment_intent`: either a return value or
an uncaught exception (`json.loads(None)` raising `TypeError`). -/
inductive COutcome where
  | raised
  | done (o : Option Order)
deriving DecidableEq, Repr

/-- Replace the order row with the given primary key, as `order.save()` on an
existing row. -/
def updateOrderRow (orders : List Order) (oid : String) (o2 : Order) : List Order :=
  orders.map fun x => if x.id = oid then o2 else x

/-- Cart clearing for an authenticated purchaser: delete the user's
`ShoppingCartItem` rows; a missing user is logged and ignored. -/
def clearUserCart (db : DB) (uid : String) : DB :=
  if db.users.contains uid then
    { db with cartRows := db.cartRows.filter fun r => r.userId ≠ uid }
  else db

/-- `if not address_id: address_id = self.create_address_from_shipping_metadata(metadata)`:
keep a truthy metadata `address_id`, otherwise create an address row. -/
def addressStep (db : DB) (m : Metadata) : DB × Option String :=
  if optTruthy m.address_id then (db, some (m.address_id.getD ""))
  else createAddressFromShippingMetadata db m

/-- The transaction body of the view up to and including `serializer.save()`:
resolve or create the address, branch on authenticated versus guest metadata,
parse the shipping vendor id with `int(...)`, and run the matching
serializer's `create`. -/
def viewTx (ctx : Option String) (db : DB) (pi : PaymentIntent)
    (lines : List MetaCartLine) : Except VErr (DB × Order) :=
  let meta := pi.metadata
  match addressStep db meta with
  | (_, none) => .error .addressCreationFailed
  | (db1, some aid) =>
    let items := lines.map fun l => OrderLineData.mk l.product_item_id l.qty
    if meta.is_authenticated.getD "False" = "True" ∧ optTruthy meta.user_id then
      match (meta.shipping_vendor_id.getD "").toInt? with
      | none => .error .vendorIdNotInt
      | some _ =>
        match authCreate ctx db1 ⟨meta.user_id.getD "", aid, items⟩ with
        | .error e => .error (.serErr e)
        | .ok r => .ok r
    else
      if ¬ optTruthy meta.guest_email then .error .missingGuestEmail
      else
        match (meta.shipping_vendor_id.getD "").toInt? with
        | none => .error .vendorIdNotInt
        | some _ =>
          match guestCreate ctx db1
              ⟨meta.guest_email.getD "", meta.guest_first_name.getD "",
                meta.guest_last_name.getD "", meta.shipping_phone.getD "", aid, items⟩ with
          | .error e => .error (.serErr e)
          | .ok r => .ok r

/-- The rest of the view's transaction: compare the gateway-reported amount to
the computed order total (one-cent tolerance), set the order to `processing`
with the `paymentIntentId`, and clear an authenticated purchaser's cart. -/
def viewTxFull (ctx : Option String) (db : DB) (pi : PaymentIntent)
    (lines : List MetaCartLine) : Except VErr (DB × Order) :=
  match viewTx ctx db pi lines with
  | .error e => .error e
  | .ok (db2, o) =>
    if (1 : ℚ)/100 < |(pi.amount : ℚ)/100 - o.totalPrice| then .error .amountMismatch
    else
      let o2 : Order := { o with status := .processing, paymentIntentId := some pi.id }
      let db3 : DB := { db2 with orders := updateOrderRow db2.orders o.id o2 }
      let db4 :=
        if pi.metadata.is_authenticated.getD "False" = "True" ∧ optTruthy pi.metadata.user_id
        then clearUserCart db3 (pi.metadata.user_id.getD "")
        else db3
      .ok (db4, o2)

/-- `StripeViewSet._create_order_from_payment_intent` with the serializer
context's `country_code` as an explicit parameter: parse `cart_items`,
require a shipping vendor id, short-circuit on an existing order with the
same `paymentIntentId`, and otherwise run the transaction, returning `None`
(with every transactional write rolled back) on any caught exception. -/
def createOrderFromPaymentIntentCtx (ctx : Option String) (db : DB)
    (pi : PaymentIntent) : DB × COutcome :=
  match pi.metadata.cart_items with
  | none => (db, .raised)
  | some .bad => (db, .done none)
  | some (.ok lines) =>
    if ¬ optTruthy pi.metadata.shipping_vendor_id then (db, .done none)
    else
      match db.orders.find? fun o => o.paymentIntentId = some pi.id with
      | some existing => (db, .done (some existing))
      | none =>
        match viewTxFull ctx db pi lines with
        | .error _ => (db, .done none)
        | .ok (db4, o2) => (db4, .done (some o2))

/-- The function as the source runs it: the serializers are constructed with
no context (`CreateAuthenticatedOrderSerializer(data=order_data)`), so the
context's `country_code` is absent. -/
def createOrderFromPaymentIntent (db : DB) (pi : PaymentIntent) : DB × COutcome :=
  createOrderFromPaymentIntentCtx none db pi

/-! ### Webhook handler -/

/-- A verified Stripe event: its `type` and the `data.object` payload. -/
structure StripeEvent where
  type : String
  object : PaymentIntent
deriving DecidableEq, Repr

/-- `StripeViewSet.webhook`: the argument is the outcome of
`stripe.Webhook.construct_event` (`.error` for a malformed payload or a
failed signature check).  Returns the HTTP status and the database state. -/
def webhook (db : DB) (ev : Except Unit StripeEvent) : Nat × DB :=
  match ev with
  | .error _ => (400, db)
  | .ok e =>
    if e.type = "payment_intent.succeeded" then
      let (db2, _) := createOrderFromPaymentIntent db e.object
      (200, db2)
    else (200, db)

/-! ### Manual create-order endpoint -/

/-- The caller's identity: the authenticated user (if any) and the
`guest_id` cookie (if present). -/
structure RequestCtx where
  authUserId : Option String := none
  guestCookie : Option String := none
deriving DecidableEq, Repr

/-- The ownership check shared by `shipping` and `create_order`: the
authenticated user matches the metadata `user_id`, or else a non-empty guest
cookie matches the metadata `guest_id`. -/
def isOwner (req : RequestCtx) (meta : Metadata) : Bool :=
  (match req.authUserId with
    | some uid => meta.user_id == some uid
    | none => false) ||
  (match req.guestCookie with
    | some gid => gid != "" && meta.guest_id == some gid
    | none => false)

/-- `StripeViewSet.create_order`: the manual retry endpoint.  The second
argument is the outcome of `stripe.PaymentIntent.retrieve`.  Returns the HTTP
status, the order id disclosed in the body (if any), and the database. -/
def createOrderEndpoint (db : DB) (req : RequestCtx)
    (retrieve : Except Unit PaymentIntent) : Nat × Option String × DB :=
  match retrieve with
  | .error _ => (400, none, db)
  | .ok pi =>
    if pi.status ≠ "succeeded" then (400, none, db)
    else if optTruthy pi.metadata.order_id then (200, pi.metadata.order_id, db)
    else if ¬ isOwner req pi.metadata then (403, none, db)
    else
      match createOrderFromPaymentIntent db pi with
      | (db2, .done (some o)) => (201, some o.id, db2)
      | (db2, .done none) => (400, none, db2)
      | (db2, .raised) => (500, none, db2)

/-! ### OrderCreationService.create_order_from_payment_intent -/

/-- Cart extraction in the service: authenticated users read their persisted
cart rows from the database (`None` when empty), guests parse the
`cart_items` metadata (the service checks for a missing key before parsing,
so it never raises). -/
def serviceExtractCart (db : DB) (pi : PaymentIntent) : Option (List MetaCartLine) :=
  let meta := pi.metadata
  if meta.is_authenticated.getD "False" = "True" ∧ optTruthy meta.user_id then
    let c := (db.cartRows.filter fun r => r.userId = meta.user_id.getD "").map
      fun r => MetaCartLine.mk r.productItemId r.quantity
    if c = [] then none else some c
  else
    match meta.cart_items with
    | none => none
    | some .bad => none
    | some (.ok lines) => some lines

/-- `_prepare_authenticated_order_data` / `_prepare_guest_order_data`: build
the serializer input, requiring a guest email for guest orders and parsing
the shipping vendor id with `int(...)`. -/
def servicePrepData (meta : Metadata) (aid : String) (items : List OrderLineData) :
    Except VErr (Sum AuthOrderData GuestOrderData) :=
  if meta.is_authenticated.getD "False" = "True" ∧ optTruthy meta.user_id then
    match (meta.shipping_vendor_id.getD "").toInt? with
    | none => .error .vendorIdNotInt
    | some _ => .ok (.inl ⟨meta.user_id.getD "", aid, items⟩)
  else
    if ¬ optTruthy meta.guest_email then .error .missingGuestEmail
    else
      match (meta.shipping_vendor_id.getD "").toInt? with
      | none => .error .vendorIdNotInt
      | some _ =>
        .ok (.inr ⟨meta.guest_email.getD "", meta.guest_first_name.getD "",
          meta.guest_last_name.getD "", meta.shipping_phone.getD "", aid, items⟩)

/-- The service's transaction body: address resolution, order-data
preparation (guest email requirement and `int(shipping_vendor_id)`),
stock validation and decrement, the serializer `create`, then the status and
`paymentIntentId` update and the cart clearing.  Unlike the view, the service
has no charged-amount abort (the amounts are only logged). -/
def serviceTx (ctx : Option String) (db : DB) (pi : PaymentIntent)
    (cart : List MetaCartLine) : Except VErr (DB × Order) :=
  let meta := pi.metadata
  match addressStep db meta with
  | (_, none) => .error .addressCreationFailed
  | (db1, some aid) =>
    let items := cart.map fun l => OrderLineData.mk l.product_item_id l.qty
    let isAuth := meta.is_authenticated.getD "False" = "True" ∧ optTruthy meta.user_id
    match servicePrepData meta aid items with
    | .error e => .error e
    | .ok data =>
      match validateAndUpdateStock db1 cart with
      | .error sf => .error (.stockInsufficient sf)
      | .ok db2 =>
        let savedE :=
          match data with
          | .inl ad => authCreate ctx db2 ad
          | .inr gd => guestCreate ctx db2 gd
        match savedE with
        | .error e => .error (.serErr e)
        | .ok (db3, o) =>
          let o2 : Order := { o with status := .processing, paymentIntentId := some pi.id }
          let db4 : DB := { db3 with orders := updateOrderRow db3.orders o.id o2 }
          let db5 := if isAuth then clearUserCart db4 (meta.user_id.getD "") else db4
          .ok (db5, o2)

/-- `OrderCreationService.create_order_from_payment_intent`, with the
serializer context's `country_code` as a parameter (the source constructs the
serializers with no context, matching `ctx = none`). -/
def serviceCreateOrderCtx (ctx : Option String) (db : DB) (pi : PaymentIntent) :
    DB × Option Order :=
  match serviceExtractCart db pi with
  | none => (db, none)
  | some cart =>
    if ¬ optTruthy pi.metadata.shipping_vendor_id then (db, none)
    else
      match db.orders.find? fun o => o.paymentIntentId = some pi.id with
      | some existing => (db, some existing)
      | none =>
        match serviceTx ctx db pi cart with
        | .error _ => (db, none)
        | .ok (db5, o2) => (db5, some o2)

/-! ### Concrete scenario data -/

/-- A catalog/user fixture: product `P` (name `Widget`) with item `A` priced
at 10.00 AUD (both as the intent-time AU price and as the AU
`ProductLocation` base price), stock 5; authenticated user `u1` with item `A`
(qty 2) in the persisted cart; one address `addr1`. -/
def baseDB : DB :=
  { products := [⟨"P", "Widget"⟩],
    productItems := [⟨"A", "P", some 10, 5⟩],
    productLocationPrices := [⟨"P", "AU", 10⟩],
    users := ["u1"],
    addresses := [⟨"addr1", "1 Street St", "Melbourne", "3000", "VIC", "AU"⟩],
    cartRows := [⟨"u1", "A", 2⟩] }

/-- Scenario A client cart: item `A`, qty 2, with a client-supplied price
field (ignored by the server). -/
def cartA : List RawCartLine := [{ productId := some "A", quantity := some 2, price := some 999 }]

/-- Scenario A payment intent: succeeded, 2000 minor units, complete
metadata for the authenticated user `u1`. -/
def piA : PaymentIntent :=
  { id := "pi_A", amount := 2000, status := "succeeded",
    metadata :=
      { user_id := some "u1", guest_id := some "", is_authenticated := some "True",
        cart_items := some (.ok [⟨"A", 2⟩]), address_id := some "addr1",
        shipping_vendor_id := some "3" } }

/-- The total of a successful `create_intent` response. -/
def intentTotalCents : IntentResp → Option ℤ
  | .ok t _ => some t
  | _ => none

/-- The owner-exclusivity invariant on an order row. -/
def exactlyOneOwner (o : Order) : Prop :=
  (o.user ≠ none ∧ o.guestUser = none) ∨ (o.user = none ∧ o.guestUser ≠ none)

/-! ## Claim theorems -/

/-- C1: the claimed idempotence ("invoking order creation twice with the same
payment-intent id yields exactly one Order row with that paymentIntentId")
fails on the code: for the fully-populated fresh Scenario A intent, both the
first and the second invocation of `_create_order_from_payment_intent` return
`None` and leave the database untouched, so zero orders carry the intent id —
the serializers are constructed without a context, so their `create` raises
`ValidationError` before any order can be persisted. -/
theorem order_creation_not_idempotent_eval :
    createOrderFromPaymentIntent baseDB piA = (baseDB, .done none) ∧
    createOrderFromPaymentIntent (createOrderFromPaymentIntent baseDB piA).1 piA =
      (baseDB, .done none) ∧
    (baseDB.orders.filter fun o => o.paymentIntentId = some piA.id).length = 0 := by
  with_unfolding_all decide

set_option maxRecDepth 8000 in
/-- C2: Scenario A evaluated on the code.  `create_intent` does return 2000
minor units, but the payment-succeeded reconciliation returns `None` and
changes nothing: it contains no stock decrement at all (the stock engine
lives in the uncalled `OrderCreationService`), and its context-less
serializer raises before persisting, so no Order exists, `stock(A)` is still
5, and the purchaser's cart row is still present. -/
theorem scenario_a_eval :
    intentTotalCents (createIntent baseDB cartA) = some 2000 ∧
    createOrderFromPaymentIntent baseDB piA = (baseDB, .done none) ∧
    ((baseDB.productItems.find? fun it => it.id = "A").map (·.stock)) = some 5 ∧
    baseDB.cartRows = [⟨"u1", "A", 2⟩] := by
  with_unfolding_all decide

/-- C5: the webhook handler answers 400 and performs no order-creation work
whenever `construct_event` rejects the payload or the signature, and answers
200 for every verified event, whatever the internal processing outcome. -/
theorem webhook_always_acknowledges (db : DB) (r : Except Unit StripeEvent) :
    (∀ e : Unit, r = .error e → webhook db r = (400, db)) ∧
    (∀ ev : StripeEvent, r = .ok ev → (webhook db r).1 = 200) := by
  constructor
  · intro e he
    subst he
    rfl
  · intro ev he
    subst he
    show (webhook db (.ok ev)).1 = 200
    unfold webhook
    rcases h : createOrderFromPaymentIntent db ev.object with ⟨db2, u⟩
    by_cases ht : ev.type = "payment_intent.succeeded" <;> simp [ht, h]

/-- C5 witness: a rejected signature gives 400 with no state change, and a
verified `payment_intent.succeeded` event is acknowledged with 200. -/
theorem webhook_always_acknowledges_witness :
    webhook baseDB (.error ()) = (400, baseDB) ∧
    (webhook baseDB (.ok ⟨"payment_intent.succeeded", piA⟩)).1 = 200 :=
  ⟨(webhook_always_acknowledges baseDB (.error ())).1 () rfl,
   (webhook_always_acknowledges baseDB (.ok ⟨"payment_intent.succeeded", piA⟩)).2 _ rfl⟩

/-- The empty relational state. -/
def emptyDB : DB := {}

/-- A non-owner request: unauthenticated and without a guest cookie. -/
def strangerReq : RequestCtx := {}

/-- A succeeded intent whose metadata already records an order id. -/
def piWithOrderId : PaymentIntent :=
  { id := "pi_done", amount := 2000, status := "succeeded",
    metadata := { user_id := some "u1", guest_id := some "g1", order_id := some "BDNX#0007" } }

/-- C8 counterexample: a caller who owns nothing hits the manual create-order
endpoint for an intent whose metadata carries an `order_id`, and receives 200
together with that order id — not 403 — because the existing-order branch
runs before the ownership check. -/
theorem create_order_ownership_cex :
    isOwner strangerReq piWithOrderId.metadata = false ∧
    createOrderEndpoint emptyDB strangerReq (.ok piWithOrderId) =
      (200, some "BDNX#0007", emptyDB) := by
  with_unfolding_all decide

/-- C8 (amended): for a retrieved succeeded intent, a non-owner caller gets
403 with no order information and no side effect provided the metadata does
not already record an `order_id`; when it does, the endpoint returns 200 with
that order id to any caller before the ownership check. -/
theorem create_order_requires_ownership (db : DB) (req : RequestCtx)
    (pi : PaymentIntent) (hst : pi.status = "succeeded")
    (hown : isOwner req pi.metadata = false) :
    (optTruthy pi.metadata.order_id = false →
      createOrderEndpoint db req (.ok pi) = (403, none, db)) ∧
    (∀ oid, pi.metadata.order_id = some oid → oid ≠ "" →
      createOrderEndpoint db req (.ok pi) = (200, some oid, db)) := by
  constructor
  · intro hoid
    unfold createOrderEndpoint
    simp [hst, hoid, hown]
  · intro oid hoid hne
    have htr : optTruthy (some oid) = true := by
      simp [optTruthy, hne]
    unfold createOrderEndpoint
    simp [hst, hoid, htr]

/-- C8 witness for the amended claim: a stranger asking for a fresh succeeded
intent is refused with 403 and nothing changes. -/
theorem create_order_requires_ownership_witness :
    createOrderEndpoint emptyDB strangerReq
      (.ok { id := "pi_f", amount := 100, status := "succeeded", metadata := {} }) =
      (403, none, emptyDB) :=
  (create_order_requires_ownership emptyDB strangerReq _ rfl rfl).1 rfl

/-- Without a `country_code` in the serializer context, the view's transaction
body always raises before persisting anything. -/
theorem viewTx_none_err (db : DB) (pi : PaymentIntent) (lines : List MetaCartLine) :
    ∃ e, viewTx none db pi lines = .error e := by
  unfold viewTx
  dsimp only
  split
  · exact ⟨_, rfl⟩
  · split
    · split
      · exact ⟨_, rfl⟩
      · exact ⟨_, rfl⟩
    · split
      · exact ⟨_, rfl⟩
      · split
        · exact ⟨_, rfl⟩
        · exact ⟨_, rfl⟩

theorem viewTxFull_none_err (db : DB) (pi : PaymentIntent) (lines : List MetaCartLine) :
    ∃ e, viewTxFull none db pi lines = .error e := by
  obtain ⟨e, he⟩ := viewTx_none_err db pi lines
  exact ⟨e, by unfold viewTxFull; rw [he]⟩

/-- C10: both serializers' `create` raise `ValidationError` ("Location is
required for order creation") whenever the context has no `country_code`; the
view constructs them with no context at all, so for a fresh payment intent
`_create_order_from_payment_intent` leaves the database unchanged and never
returns an order — the exception is caught and `None` is returned (or, when
`cart_items` is missing, the `TypeError` escapes). -/
theorem missing_serializer_context_blocks_orders (db : DB) (pi : PaymentIntent)
    (hfresh : (db.orders.find? fun o => o.paymentIntentId = some pi.id) = none) :
    (∀ d, guestCreate none db d = .error .locationRequired) ∧
    (∀ d, authCreate none db d = .error .locationRequired) ∧
    (createOrderFromPaymentIntent db pi).1 = db ∧
    (∀ o, (createOrderFromPaymentIntent db pi).2 ≠ .done (some o)) := by
  have key : ∃ r, createOrderFromPaymentIntent db pi = (db, r) ∧
      ∀ o : Order, r ≠ .done (some o) := by
    unfold createOrderFromPaymentIntent createOrderFromPaymentIntentCtx
    cases hc : pi.metadata.cart_items with
    | none =>
      exact ⟨.raised, rfl, fun o h => COutcome.noConfusion h⟩
    | some jc =>
      cases jc with
      | bad =>
        exact ⟨.done none, rfl, fun o h => Option.noConfusion (COutcome.done.inj h)⟩
      | ok lines =>
        cases hsv : optTruthy pi.metadata.shipping_vendor_id with
        | false =>
          refine ⟨.done none, ?_, fun o h => Option.noConfusion (COutcome.done.inj h)⟩
          simp [hsv]
        | true =>
          refine ⟨.done none, ?_, fun o h => Option.noConfusion (COutcome.done.inj h)⟩
          obtain ⟨e, he⟩ := viewTxFull_none_err db pi lines
          simp [hsv, hfresh, he]
  obtain ⟨r, hr, hno⟩ := key
  exact ⟨fun d => rfl, fun d => rfl, by rw [hr], by rw [hr]; exact hno⟩

/-- A fresh guest intent, used to exhibit C10 concretely. -/
def piGuest : PaymentIntent :=
  { id := "pi_G", amount := 2000, status := "succeeded",
    metadata :=
      { user_id := some "", guest_id := some "g1", is_authenticated := some "False",
        cart_items := some (.ok [⟨"A", 2⟩]), address_id := some "addr1",
        shipping_vendor_id := some "3", guest_email := some "g@example.com" } }

/-- C10 witness: on the concrete fixture, the guest serializer without context
raises `ValidationError` and reconciliation of the fresh guest intent leaves
the database unchanged. -/
theorem missing_serializer_context_blocks_orders_witness :
    guestCreate none baseDB ⟨"g@example.com", "G", "H", "", "addr1", [⟨"A", 2⟩]⟩ =
      .error .locationRequired ∧
    (createOrderFromPaymentIntent baseDB piGuest).1 = baseDB :=
  ⟨(missing_serializer_context_blocks_orders baseDB piGuest rfl).1 _,
   (missing_serializer_context_blocks_orders baseDB piGuest rfl).2.2.1⟩

/-- C4: whenever the view's transaction reaches `serializer.save()` and the
gateway-reported amount differs from the computed order total by more than
one cent, the whole transaction is aborted: the reconciliation returns `None`
and the database is exactly as before — no Order or OrderItem survives,
despite the external charge having succeeded. -/
theorem amount_mismatch_aborts (ctx : Option String) (db : DB) (pi : PaymentIntent)
    (lines : List MetaCartLine) (db2 : DB) (o : Order)
    (hcart : pi.metadata.cart_items = some (.ok lines))
    (hsv : optTruthy pi.metadata.shipping_vendor_id = true)
    (hfresh : (db.orders.find? fun x => x.paymentIntentId = some pi.id) = none)
    (htx : viewTx ctx db pi lines = .ok (db2, o))
    (hgap : (1 : ℚ)/100 < |(pi.amount : ℚ)/100 - o.totalPrice|) :
    createOrderFromPaymentIntentCtx ctx db pi = (db, .done none) := by
  have hfull : viewTxFull ctx db pi lines = .error .amountMismatch := by
    unfold viewTxFull
    rw [htx]
    dsimp only
    rw [if_pos hgap]
  unfold createOrderFromPaymentIntentCtx
  rw [hcart]
  simp [hsv, hfresh, hfull]

/-- Scenario D intent: charged 5000 minor units while the serializer computes
an order total of 20.00. -/
def piD : PaymentIntent := { piA with id := "pi_D", amount := 5000 }

/-- The order and state the serializer builds for `piD` before the
consistency check fires. -/
def orderAuthA : Order :=
  { id := "BDNX#0001", user := some "u1", guestUser := none, addressId := "addr1",
    totalPrice := 20, status := .pending, paymentIntentId := none }

def dbAfterTxA : DB :=
  { baseDB with orders := [orderAuthA], orderItems := [⟨"BDNX#0001", "A", 2, 10⟩] }

/-- C4 witness: with a context present (so that the serializer can even run),
charging 5000 against a computed total of 20.00 aborts reconciliation with no
surviving state change. -/
theorem amount_mismatch_aborts_witness :
    createOrderFromPaymentIntentCtx (some "AU") baseDB piD = (baseDB, .done none) :=
  amount_mismatch_aborts (some "AU") baseDB piD [⟨"A", 2⟩] dbAfterTxA orderAuthA
    rfl rfl rfl (by with_unfolding_all rfl)
    (by norm_num [piD, piA, orderAuthA])

/-- Address creation touches only the address table and the id counter. -/
theorem createAddress_fields (db : DB) (m : Metadata) :
    (createAddressFromShippingMetadata db m).1.productItems = db.productItems ∧
    (createAddressFromShippingMetadata db m).1.products = db.products ∧
    (createAddressFromShippingMetadata db m).1.orders = db.orders ∧
    (createAddressFromShippingMetadata db m).1.users = db.users ∧
    (createAddressFromShippingMetadata db m).1.cartRows = db.cartRows := by
  unfold createAddressFromShippingMetadata
  dsimp only
  split <;> split <;> exact ⟨rfl, rfl, rfl, rfl, rfl⟩

theorem addressStep_fields (db : DB) (m : Metadata) :
    (addressStep db m).1.productItems = db.productItems ∧
    (addressStep db m).1.products = db.products ∧
    (addressStep db m).1.orders = db.orders ∧
    (addressStep db m).1.users = db.users ∧
    (addressStep db m).1.cartRows = db.cartRows := by
  unfold addressStep
  split
  · exact ⟨rfl, rfl, rfl, rfl, rfl⟩
  · exact createAddress_fields db m

/-- Shortfall detection reads only the product tables. -/
theorem stockShortfalls_congr (db1 db : DB) (h1 : db1.productItems = db.productItems)
    (h2 : db1.products = db.products) :
    ∀ cart, stockShortfalls db1 cart = stockShortfalls db cart := by
  intro cart
  induction cart with
  | nil => rfl
  | cons hd tl ih =>
    simp only [stockShortfalls, ih, h1]
    cases db.productItems.find? fun it => it.id = hd.product_item_id with
    | none => rfl
    | some it =>
      have hn : productNameOf db1 it = productNameOf db it := by
        unfold productNameOf
        rw [h2]
      simp only [hn]

/-- Every line whose found product item is short of stock contributes its
shortfall entry to the collected list. -/
theorem stockShortfalls_mem_short (db : DB) (cart : List MetaCartLine)
    (l : MetaCartLine) (it : ProductItem) (hmem : l ∈ cart)
    (hfind : (db.productItems.find? fun x => x.id = l.product_item_id) = some it)
    (hlt : it.stock < l.qty) :
    Shortfall.short l.product_item_id l.qty it.stock (productNameOf db it) ∈
      stockShortfalls db cart := by
  induction cart with
  | nil => cases hmem
  | cons hd tl ih =>
    rcases List.mem_cons.1 hmem with rfl | hmem2
    · simp only [stockShortfalls]
      rw [hfind]
      dsimp only
      rw [if_pos hlt]
      exact List.mem_cons_self _ _
    · have htail := ih hmem2
      simp only [stockShortfalls]
      cases db.productItems.find? fun x => x.id = hd.product_item_id with
      | none => exact List.mem_cons_of_mem _ htail
      | some it2 =>
        dsimp only
        by_cases hcase : it2.stock < hd.qty
        · rw [if_pos hcase]
          exact List.mem_cons_of_mem _ htail
        · rw [if_neg hcase]
          exact htail

/-- With a short line present, the service transaction raises before the
serializer can run, so every reconciliation write is rolled back. -/
theorem serviceTx_err_of_short (ctx : Option String) (db : DB) (pi : PaymentIntent)
    (cart : List MetaCartLine) (hsf : stockShortfalls db cart ≠ []) :
    ∃ e, serviceTx ctx db pi cart = .error e := by
  unfold serviceTx
  dsimp only
  split
  · exact ⟨_, rfl⟩
  · rename_i db1 aid heq
    have hdb1 : (addressStep db pi.metadata).1 = db1 := by rw [heq]
    have h1 : db1.productItems = db.productItems := by
      rw [← hdb1]
      exact (addressStep_fields db pi.metadata).1
    have h2 : db1.products = db.products := by
      rw [← hdb1]
      exact (addressStep_fields db pi.metadata).2.1
    have hsf1 : stockShortfalls db1 cart ≠ [] := by
      rw [stockShortfalls_congr db1 db h1 h2]
      exact hsf
    rcases hprep : servicePrepData pi.metadata aid
        (cart.map fun l => OrderLineData.mk l.product_item_id l.qty) with e | data
    · rw [hprep]
      exact ⟨_, rfl⟩
    · rw [hprep]
      have hvu : validateAndUpdateStock db1 cart = .error (stockShortfalls db1 cart) := by
        unfold validateAndUpdateStock
        rw [if_pos hsf1]
      rw [hvu]
      exact ⟨_, rfl⟩

/-- C3: if at least one cart line requests more than the available stock, the
reservation aborts with a shortfall list containing an entry for every short
line (not only the first), and the service reconciliation of such a cart
returns `None` with the database — stock and orders included — exactly as
before. -/
theorem insufficient_stock_aborts (db : DB) (cart : List MetaCartLine)
    (hshort : ∃ l ∈ cart, ∃ it : ProductItem,
      (db.productItems.find? fun x => x.id = l.product_item_id) = some it ∧
      it.stock < l.qty) :
    (validateAndUpdateStock db cart = .error (stockShortfalls db cart) ∧
      ∀ l ∈ cart, ∀ it : ProductItem,
        (db.productItems.find? fun x => x.id = l.product_item_id) = some it →
        it.stock < l.qty →
        Shortfall.short l.product_item_id l.qty it.stock (productNameOf db it) ∈
          stockShortfalls db cart) ∧
    ∀ ctx pi, serviceExtractCart db pi = some cart →
      (db.orders.find? fun o => o.paymentIntentId = some pi.id) = none →
      serviceCreateOrderCtx ctx db pi = (db, none) := by
  obtain ⟨l, hl, it, hf, hlt⟩ := hshort
  have hne : stockShortfalls db cart ≠ [] :=
    List.ne_nil_of_mem (stockShortfalls_mem_short db cart l it hl hf hlt)
  refine ⟨⟨?_, ?_⟩, ?_⟩
  · unfold validateAndUpdateStock
    rw [if_pos hne]
  · intro l2 hl2 it2 hf2 hlt2
    exact stockShortfalls_mem_short db cart l2 it2 hl2 hf2 hlt2
  · intro ctx pi hext hfresh
    unfold serviceCreateOrderCtx
    rw [hext]
    cases hsv : optTruthy pi.metadata.shipping_vendor_id with
    | false => simp [hsv]
    | true =>
      obtain ⟨e, he⟩ := serviceTx_err_of_short ctx db pi cart hne
      simp [hsv, hfresh, he]

/-- Scenario B state: stock(A) is only 1. -/
def dbB : DB := { baseDB with productItems := [⟨"A", "P", some 10, 1⟩] }

def cartB : List MetaCartLine := [⟨"A", 2⟩]

/-- C3 witness (Scenario B): requesting quantity 2 of item `A` with stock 1
makes the guest reconciliation return `None` with the database unchanged. -/
theorem insufficient_stock_aborts_witness :
    serviceCreateOrderCtx none dbB piGuest = (dbB, none) :=
  (insufficient_stock_aborts dbB cartB
      ⟨⟨"A", 2⟩, by with_unfolding_all decide, ⟨"A", "P", some 10, 1⟩,
        by with_unfolding_all decide, by norm_num⟩).2
    none piGuest (by with_unfolding_all rfl) rfl

/-- A successful guest `create` appends exactly one order, owned by the fresh
guest profile and by no user. -/
theorem guestCreate_ok {ctx : Option String} {db : DB} {d : GuestOrderData}
    {db2 : DB} {o : Order} (h : guestCreate ctx db d = .ok (db2, o)) :
    db2.orders = db.orders ++ [o] ∧ o.user = none ∧ o.guestUser ≠ none := by
  cases ctx with
  | none => exact Except.noConfusion h
  | some country =>
    unfold guestCreate at h
    dsimp only at h
    split at h
    · exact Except.noConfusion h
    · split at h
      · exact Except.noConfusion h
      · injection h with h2
        injection h2 with ha hb
        subst ha
        subst hb
        exact ⟨rfl, rfl, Option.some_ne_none _⟩

/-- A successful authenticated `create` appends exactly one order, owned by
the user and by no guest profile. -/
theorem authCreate_ok {ctx : Option String} {db : DB} {d : AuthOrderData}
    {db2 : DB} {o : Order} (h : authCreate ctx db d = .ok (db2, o)) :
    db2.orders = db.orders ++ [o] ∧ o.user ≠ none ∧ o.guestUser = none := by
  cases ctx with
  | none => exact Except.noConfusion h
  | some country =>
    unfold authCreate at h
    dsimp only at h
    split at h
    · split at h
      · exact Except.noConfusion h
      · split at h
        · exact Except.noConfusion h
        · injection h with h2
          injection h2 with ha hb
          subst ha
          subst hb
          exact ⟨rfl, Option.some_ne_none _, rfl⟩
    · exact Except.noConfusion h

theorem clearUserCart_orders (db : DB) (uid : String) :
    (clearUserCart db uid).orders = db.orders := by
  unfold clearUserCart
  split <;> rfl

theorem mem_updateOrderRow {x : Order} {l : List Order} {oid : String} {o2 : Order}
    (h : x ∈ updateOrderRow l oid o2) : x ∈ l ∨ x = o2 := by
  unfold updateOrderRow at h
  obtain ⟨y, hy, hxy⟩ := List.mem_map.1 h
  by_cases hc : y.id = oid
  · right
    rw [← hxy, if_pos hc]
  · left
    rw [← hxy, if_neg hc]
    exact hy

/-- The view transaction up to `serializer.save()` appends exactly one order,
and that order satisfies the owner-exclusivity invariant. -/
theorem viewTx_ok {ctx : Option String} {db : DB} {pi : PaymentIntent}
    {lines : List MetaCartLine} {db2 : DB} {o : Order}
    (h : viewTx ctx db pi lines = .ok (db2, o)) :
    db2.orders = db.orders ++ [o] ∧ exactlyOneOwner o := by
  unfold viewTx at h
  dsimp only at h
  split at h
  · exact Except.noConfusion h
  · rename_i db1 aid heq
    have h1 : db1.orders = db.orders := by
      have hdb1 : (addressStep db pi.metadata).1 = db1 := by rw [heq]
      rw [← hdb1]
      exact (addressStep_fields db pi.metadata).2.2.1
    split at h
    · split at h
      · exact Except.noConfusion h
      · split at h
        · exact Except.noConfusion h
        · rename_i r hauth
          injection h with h2
          subst h2
          obtain ⟨ho, hu, hg⟩ := authCreate_ok hauth
          exact ⟨by rw [ho, h1], .inl ⟨hu, hg⟩⟩
    · split at h
      · exact Except.noConfusion h
      · split at h
        · exact Except.noConfusion h
        · split at h
          · exact Except.noConfusion h
          · rename_i r hguest
            injection h with h2
            subst h2
            obtain ⟨ho, hu, hg⟩ := guestCreate_ok hguest
            exact ⟨by rw [ho, h1], .inr ⟨hu, hg⟩⟩

/-- Every order present after a successful full view transaction either
pre-existed or satisfies owner exclusivity. -/
theorem viewTxFull_ok_orders {ctx : Option String} {db : DB} {pi : PaymentIntent}
    {lines : List MetaCartLine} {db4 : DB} {o2 : Order}
    (h : viewTxFull ctx db pi lines = .ok (db4, o2)) :
    ∀ x ∈ db4.orders, x ∈ db.orders ∨ exactlyOneOwner x := by
  unfold viewTxFull at h
  rcases hv : viewTx ctx db pi lines with e | ⟨db2, o⟩
  · rw [hv] at h
    exact Except.noConfusion h
  · rw [hv] at h
    dsimp only at h
    split at h
    · exact Except.noConfusion h
    · injection h with h2
      injection h2 with ha hb
      subst ha
      subst hb
      obtain ⟨horders, hexc⟩ := viewTx_ok hv
      intro x hx
      have hx2 : x ∈ updateOrderRow db2.orders o.id
          { o with status := .processing, paymentIntentId := some pi.id } := by
        by_cases hc : pi.metadata.is_authenticated.getD "False" = "True" ∧
            optTruthy pi.metadata.user_id = true
        · rw [if_pos hc, clearUserCart_orders] at hx
          exact hx
        · rw [if_neg hc] at hx
          exact hx
      rcases mem_updateOrderRow hx2 with hx3 | hx3
      · rw [horders] at hx3
        rcases List.mem_append.1 hx3 with hx4 | hx4
        · exact .inl hx4
        · right
          rw [List.mem_singleton.1 hx4]
          exact hexc
      · right
        subst hx3
        exact hexc

/-- Orders in the database after a view reconciliation: untouched rows or
rows satisfying owner exclusivity. -/
theorem createOrder_mem_orders (ctx : Option String) (db : DB) (pi : PaymentIntent) :
    ∀ o ∈ (createOrderFromPaymentIntentCtx ctx db pi).1.orders,
      o ∈ db.orders ∨ exactlyOneOwner o := by
  unfold createOrderFromPaymentIntentCtx
  split
  · exact fun o ho => .inl ho
  · exact fun o ho => .inl ho
  · split
    · exact fun o ho => .inl ho
    · split
      · exact fun o ho => .inl ho
      · split
        · exact fun o ho => .inl ho
        · rename_i heq
          exact viewTxFull_ok_orders heq

theorem decrementStock_orders (cart : List MetaCartLine) :
    ∀ db : DB, (decrementStock db cart).orders = db.orders := by
  induction cart with
  | nil => intro db; rfl
  | cons hd tl ih => intro db; exact ih _

theorem validateAndUpdateStock_ok_orders {db : DB} {cart : List MetaCartLine}
    {db2 : DB} (h : validateAndUpdateStock db cart = .ok db2) :
    db2.orders = db.orders := by
  unfold validateAndUpdateStock at h
  dsimp only at h
  split at h
  · exact Except.noConfusion h
  · injection h with h2
    subst h2
    exact decrementStock_orders cart db

/-- The service transaction appends exactly one order satisfying owner
exclusivity. -/
theorem serviceTx_ok {ctx : Option String} {db : DB} {pi : PaymentIntent}
    {cart : List MetaCartLine} {db5 : DB} {o2 : Order}
    (h : serviceTx ctx db pi cart = .ok (db5, o2)) :
    ∀ x ∈ db5.orders, x ∈ db.orders ∨ exactlyOneOwner x := by
  unfold serviceTx at h
  dsimp only at h
  split at h
  · exact Except.noConfusion h
  · rename_i db1 aid heq
    have h1 : db1.orders = db.orders := by
      have hdb1 : (addressStep db pi.metadata).1 = db1 := by rw [heq]
      rw [← hdb1]
      exact (addressStep_fields db pi.metadata).2.2.1
    split at h
    · exact Except.noConfusion h
    · rename_i data hdata
      split at h
      · exact Except.noConfusion h
      · rename_i db2s hstock
        have h2 : db2s.orders = db1.orders := validateAndUpdateStock_ok_orders hstock
        split at h
        · exact Except.noConfusion h
        · rename_i db3 o hsave
          injection h with hp
          injection hp with ha hb
          subst ha
          subst hb
          have h3 : db3.orders = db2s.orders ++ [o] ∧ exactlyOneOwner o := by
            cases data with
            | inl ad =>
              obtain ⟨ho, hu, hg⟩ := authCreate_ok hsave
              exact ⟨ho, .inl ⟨hu, hg⟩⟩
            | inr gd =>
              obtain ⟨ho, hu, hg⟩ := guestCreate_ok hsave
              exact ⟨ho, .inr ⟨hu, hg⟩⟩
          obtain ⟨horders, hexc⟩ := h3
          intro x hx
          have hx2 : x ∈ updateOrderRow db3.orders o.id
              { o with status := .processing, paymentIntentId := some pi.id } := by
            by_cases hc : pi.metadata.is_authenticated.getD "False" = "True" ∧
                optTruthy pi.metadata.user_id = true
            · rw [if_pos hc, clearUserCart_orders] at hx
              exact hx
            · rw [if_neg hc] at hx
              exact hx
          rcases mem_updateOrderRow hx2 with hx3 | hx3
          · rw [horders, h2, h1] at hx3
            rcases List.mem_append.1 hx3 with hx4 | hx4
            · exact .inl hx4
            · right
              rw [List.mem_singleton.1 hx4]
              exact hexc
          · right
            subst hx3
            exact hexc

theorem serviceCreate_mem_orders (ctx : Option String) (db : DB) (pi : PaymentIntent) :
    ∀ o ∈ (serviceCreateOrderCtx ctx db pi).1.orders,
      o ∈ db.orders ∨ exactlyOneOwner o := by
  unfold serviceCreateOrderCtx
  split
  · exact fun o ho => .inl ho
  · split
    · exact fun o ho => .inl ho
    · split
      · exact fun o ho => .inl ho
      · split
        · exact fun o ho => .inl ho
        · rename_i heq
          exact serviceTx_ok heq

/-- C7: the guest serializer persists orders with `guestUser` set and `user`
null, the authenticated serializer the reverse, and every order row a
reconciliation (view or service) adds to the database satisfies the
exactly-one-owner invariant. -/
theorem order_owner_exclusive (ctx : Option String) (db : DB) :
    (∀ d db2 o, guestCreate ctx db d = .ok (db2, o) → o.user = none ∧ o.guestUser ≠ none) ∧
    (∀ d db2 o, authCreate ctx db d = .ok (db2, o) → o.user ≠ none ∧ o.guestUser = none) ∧
    (∀ pi o, o ∈ (createOrderFromPaymentIntentCtx ctx db pi).1.orders →
      o ∈ db.orders ∨ exactlyOneOwner o) ∧
    (∀ pi o, o ∈ (serviceCreateOrderCtx ctx db pi).1.orders →
      o ∈ db.orders ∨ exactlyOneOwner o) :=
  ⟨fun _ _ _ h => (guestCreate_ok h).2,
   fun _ _ _ h => (authCreate_ok h).2,
   fun pi o ho => createOrder_mem_orders ctx db pi o ho,
   fun pi o ho => serviceCreate_mem_orders ctx db pi o ho⟩

/-- The guest order data of the concrete fixture. -/
def guestDataA : GuestOrderData := ⟨"g@example.com", "G", "H", "", "addr1", [⟨"A", 2⟩]⟩

/-- The order the guest serializer creates on the fixture. -/
def guestOrderA : Order :=
  { id := "BDNX#0001", user := none, guestUser := some "uuid-0", addressId := "addr1",
    totalPrice := 20, status := .pending, paymentIntentId := none }

/-- The state after the guest serializer ran on the fixture. -/
def dbAfterGuest : DB :=
  { baseDB with
    guestUsers := [⟨"uuid-0", "g@example.com", "G", "H", ""⟩],
    orders := [guestOrderA],
    orderItems := [⟨"BDNX#0001", "A", 2, 10⟩],
    nextId := 1 }

/-- C7 witness: the concrete guest order has `user` null and `guestUser`
set. -/
theorem order_owner_exclusive_witness :
    guestOrderA.user = none ∧ guestOrderA.guestUser ≠ none :=
  (order_owner_exclusive (some "AU") baseDB).1 guestDataA dbAfterGuest guestOrderA
    (by with_unfolding_all rfl)

/-- When every normalised line resolves to a positive server price, the
pricing loop reports no missing items and totals exactly
Σ (unit price × qty). -/
theorem intentLoop_all_priced (pm : List (String × ℚ)) (nm : List (String × String))
    (lines : List NormLine)
    (hall : ∀ l ∈ lines, ∃ p, dictGet pm l.product_item_id = some p ∧ 0 < p) :
    (intentLoop pm nm lines).1 = [] ∧
    (intentLoop pm nm lines).2.1 = serverTotal pm lines := by
  induction lines with
  | nil => exact ⟨rfl, rfl⟩
  | cons hd tl ih =>
    obtain ⟨p, hp, hppos⟩ := hall hd (List.mem_cons_self hd tl)
    obtain ⟨ihm, iht⟩ := ih fun l hl => hall l (List.mem_cons_of_mem hd hl)
    rcases hrec : intentLoop pm nm tl with ⟨ms, t, ss⟩
    rw [hrec] at ihm iht
    dsimp only at ihm iht
    simp only [intentLoop, serverTotal, hrec, hp, Option.getD_some]
    rw [if_neg (not_le.2 hppos)]
    exact ⟨ihm, by rw [iht]⟩

/-- Normalisation ignores any client-supplied price data. -/
theorem normalizeCart_map_price (f : RawCartLine → Option ℚ) (cart : List RawCartLine) :
    normalizeCart (cart.map fun l => { l with price := f l }) = normalizeCart cart := by
  unfold normalizeCart
  rw [List.filterMap_map]
  congr 1

/-- C6: for a cart whose normalised lines all resolve to positive
server-side prices (and whose rounded total is positive), `create_intent`
answers with exactly the cent-rounded Σ (server price × qty), and the answer
is unchanged under arbitrary rewriting of the client-supplied price data. -/
theorem create_intent_pricing (db : DB) (cart : List RawCartLine)
    (pm : List (String × ℚ)) (nm : List (String × String))
    (hne : normalizeCart cart ≠ [])
    (hpm : buildPriceMaps db ((normalizeCart cart).map (·.product_item_id)) = .ok (pm, nm))
    (hall : ∀ l ∈ normalizeCart cart, ∃ p, dictGet pm l.product_item_id = some p ∧ 0 < p)
    (hpos : 0 < toCents (serverTotal pm (normalizeCart cart))) :
    (∃ items, createIntent db cart =
      .ok (toCents (serverTotal pm (normalizeCart cart))) items) ∧
    ∀ f : RawCartLine → Option ℚ,
      createIntent db (cart.map fun l => { l with price := f l }) = createIntent db cart := by
  have hcne : cart ≠ [] := by
    intro hc
    rw [hc] at hne
    exact hne rfl
  obtain ⟨hm, ht⟩ := intentLoop_all_priced pm nm (normalizeCart cart) hall
  constructor
  · unfold createIntent
    rw [if_neg hcne]
    dsimp only
    rw [if_neg hne, hpm]
    dsimp only
    rcases hloop : intentLoop pm nm (normalizeCart cart) with ⟨ms, t, ss⟩
    rw [hloop] at hm ht
    dsimp only at hm ht ⊢
    rw [if_neg (by simp [hm]), ht, if_neg (not_le.2 hpos)]
    exact ⟨ss, rfl⟩
  · intro f
    unfold createIntent
    rw [normalizeCart_map_price]
    by_cases hmapnil : cart.map (fun l => { l with price := f l }) = []
    · exact absurd (List.map_eq_nil_iff.1 hmapnil) hcne
    · rw [if_neg hmapnil, if_neg hcne]

/-- The price and name dictionaries `create_intent` builds on the fixture. -/
def pmA : List (String × ℚ) := [("A", 10)]

def nmA : List (String × String) := [("A", "Widget")]

/-- C6 witness: the Scenario A cart prices to the rounded server total (2000
minor units) regardless of the client-supplied price field. -/
theorem create_intent_pricing_witness :
    ∃ items, createIntent baseDB cartA =
      .ok (toCents (serverTotal pmA (normalizeCart cartA))) items :=
  (create_intent_pricing baseDB cartA pmA nmA (by decide)
    (by with_unfolding_all rfl)
    (by
      intro l hl
      have hn : normalizeCart cartA = [⟨"A", 2⟩] := by with_unfolding_all rfl
      rw [hn, List.mem_singleton] at hl
      subst hl
      exact ⟨10, by with_unfolding_all rfl, by norm_num⟩)
    (by with_unfolding_all decide)).1

end Shop
